import Mathlib

/-!
Shallow embedding of the CutPro cutting-layout engine
(`src/components/Cutting/Cutting.jsx`, with the older backfill-free revision from
`src/components/Navbar/Navbar.jsx`), together with theorems checking the
specification's claims about it.

JavaScript numbers are modelled as rationals, `Math.max`/`Math.floor` as `max` and
`Int.floor`, JS `null` as `Option.none`, and the `for` loops that push placements
as maps over `List.range`.
-/

/-- A leftover rectangular region `{ x, y, w, h }` of the sheet. -/
structure Strip where
  x : ℚ
  y : ℚ
  w : ℚ
  h : ℚ
deriving DecidableEq

/-- A single placement `{ x, y, w, h, rotated }` pushed by the engine's loops. -/
structure Piece where
  x : ℚ
  y : ℚ
  w : ℚ
  h : ℚ
  rotated : Bool
deriving DecidableEq

/-- The orientation tag the selector writes into `chosenOrientation`
(the strings "normal" / "rotated" in the source). -/
inductive ChosenOrientation where
  | normal
  | rotated
deriving DecidableEq

/-- The six scalar arguments of `computeForOrientation` (Cutting.jsx lines 30-38),
other than the `enableRotation` flag. -/
structure Inputs where
  sheetW : ℚ
  sheetH : ℚ
  pieceW : ℚ
  pieceH : ℚ
  edgeDistance : ℚ
  bladeThickness : ℚ

/-- The record returned by `computeForOrientation` (Cutting.jsx lines 107-123);
`chosenOrientation` is the property the selector adds afterwards (lines 170-174),
`none` until then. -/
structure LayoutResult where
  fitCountX : ℤ
  fitCountY : ℤ
  totalPiecesPrimary : ℤ
  totalPieces : ℕ
  pieces : List Piece
  rightStrip : Option Strip
  bottomStrip : Option Strip
  leftoverInsideW : ℚ
  leftoverInsideH : ℚ
  usedW : ℚ
  usedH : ℚ
  rotatedInRightCount : ℕ
  rotatedInBottomCount : ℕ
  wasteArea : ℚ
  wastePercent : ℚ
  chosenOrientation : Option ChosenOrientation
deriving DecidableEq

/-- The spacing normalization `Math.max(0, bladeThickness)` (Cutting.jsx lines 14 and 41). -/
def spacingOf (bladeThickness : ℚ) : ℚ := max 0 bladeThickness

/-- The fit-count formula `piece <= 0 ? 0 : Math.floor((avail + spacing) / (piece + spacing))`
(Cutting.jsx lines 15-18 and 42-45). -/
def fitCount (avail piece spacing : ℚ) : ℤ :=
  if piece ≤ 0 then 0 else ⌊(avail + spacing) / (piece + spacing)⌋

/-- The nested placement loop
`for (ix...) for (iy...) pieces.push({x: x0 + ix*(pieceW+spacing), y: y0 + iy*(pieceH+spacing), w, h, rotated})`
shared verbatim by `packIntoWaste` (Cutting.jsx lines 19-27) and the primary grid
(lines 64-71); only the `rotated` tag differs. -/
def gridPieces (x0 y0 pieceW pieceH spacing : ℚ) (nx ny : ℕ) (rot : Bool) : List Piece :=
  (List.range nx).flatMap fun (ix : ℕ) =>
    (List.range ny).map fun (iy : ℕ) =>
      { x := x0 + (ix : ℚ) * (pieceW + spacing), y := y0 + (iy : ℚ) * (pieceH + spacing),
        w := pieceW, h := pieceH, rotated := rot }

/-- `packIntoWaste` (Cutting.jsx lines 12-28): guard on a missing or degenerate strip,
then a grid of `rotated: true` placements with the strip's own fit counts. -/
def packIntoWaste (strip : Option Strip) (pieceW pieceH bladeThickness : ℚ) : List Piece :=
  match strip with
  | none => []
  | some s =>
    if s.w ≤ 0 ∨ s.h ≤ 0 then []
    else
      gridPieces s.x s.y pieceW pieceH (spacingOf bladeThickness)
        (fitCount s.w pieceW (spacingOf bladeThickness)).toNat
        (fitCount s.h pieceH (spacingOf bladeThickness)).toNat true

namespace Cutting

/-- `const effW = Math.max(0, sheetW - 2 * edgeDistance)` (Cutting.jsx line 39). -/
def effW (i : Inputs) : ℚ := max 0 (i.sheetW - 2 * i.edgeDistance)

/-- `const effH = Math.max(0, sheetH - 2 * edgeDistance)` (Cutting.jsx line 40). -/
def effH (i : Inputs) : ℚ := max 0 (i.sheetH - 2 * i.edgeDistance)

/-- `const spacing = Math.max(0, bladeThickness)` (Cutting.jsx line 41). -/
def spacing (i : Inputs) : ℚ := spacingOf i.bladeThickness

/-- `const fitCountX = pieceW <= 0 ? 0 : Math.floor((effW + spacing) / (pieceW + spacing))`
(Cutting.jsx lines 42-43). -/
def fitCountX (i : Inputs) : ℤ := fitCount (effW i) i.pieceW (spacing i)

/-- `const fitCountY` (Cutting.jsx lines 44-45). -/
def fitCountY (i : Inputs) : ℤ := fitCount (effH i) i.pieceH (spacing i)

/-- `const totalPiecesPrimary = Math.max(0, fitCountX * fitCountY)` (Cutting.jsx line 46). -/
def totalPiecesPrimary (i : Inputs) : ℤ := max 0 (fitCountX i * fitCountY i)

/-- `const usedW = fitCountX * pieceW + Math.max(0, fitCountX - 1) * spacing` (Cutting.jsx line 47). -/
def usedW (i : Inputs) : ℚ :=
  (fitCountX i : ℚ) * i.pieceW + ((max 0 (fitCountX i - 1) : ℤ) : ℚ) * spacing i

/-- `const usedH` (Cutting.jsx line 48). -/
def usedH (i : Inputs) : ℚ :=
  (fitCountY i : ℚ) * i.pieceH + ((max 0 (fitCountY i - 1) : ℤ) : ℚ) * spacing i

/-- `const leftoverInsideW = Math.max(0, effW - usedW)` (Cutting.jsx line 49). -/
def leftoverInsideW (i : Inputs) : ℚ := max 0 (effW i - usedW i)

/-- `const leftoverInsideH = Math.max(0, effH - usedH)` (Cutting.jsx line 50). -/
def leftoverInsideH (i : Inputs) : ℚ := max 0 (effH i - usedH i)

/-- `const rightStrip = { x: sheetW - edgeDistance - leftoverInsideW, y: edgeDistance,
w: leftoverInsideW, h: sheetH - 2 * edgeDistance }` (Cutting.jsx lines 51-56). -/
def rightStrip (i : Inputs) : Strip :=
  ⟨i.sheetW - i.edgeDistance - leftoverInsideW i, i.edgeDistance,
    leftoverInsideW i, i.sheetH - 2 * i.edgeDistance⟩

/-- `const bottomStrip` (Cutting.jsx lines 57-62). -/
def bottomStrip (i : Inputs) : Strip :=
  ⟨i.edgeDistance, i.sheetH - i.edgeDistance - leftoverInsideH i,
    i.sheetW - 2 * i.edgeDistance, leftoverInsideH i⟩

/-- The primary-grid loop (Cutting.jsx lines 64-71), `rotated: false`. -/
def piecesPrimary (i : Inputs) : List Piece :=
  gridPieces i.edgeDistance i.edgeDistance i.pieceW i.pieceH (spacing i)
    (fitCountX i).toNat (fitCountY i).toNat false

/-- `const rightStripPack = rightStrip ? { ...rightStrip, h: Math.max(0, rightStrip.h - leftoverInsideH) } : null`
(Cutting.jsx lines 78-80); `rightStrip` is always an object, so the spread branch is taken. -/
def rightStripPack (i : Inputs) : Strip :=
  { rightStrip i with h := max 0 ((rightStrip i).h - leftoverInsideH i) }

/-- `const bottomStripPack` (Cutting.jsx lines 81-83). -/
def bottomStripPack (i : Inputs) : Strip :=
  { bottomStrip i with w := max 0 ((bottomStrip i).w - leftoverInsideW i) }

/-- `rotatedInRight`: empty unless `enableRotation`, else `packIntoWaste` on the shrunk
right strip with the piece dimensions swapped (`rotatedW = pieceH`, `rotatedH = pieceW`)
(Cutting.jsx lines 73-89). -/
def rotatedInRight (i : Inputs) (enableRotation : Bool) : List Piece :=
  if enableRotation then
    packIntoWaste (some (rightStripPack i)) i.pieceH i.pieceW i.bladeThickness
  else []

/-- `rotatedInBottom` (Cutting.jsx lines 74, 90-95). -/
def rotatedInBottom (i : Inputs) (enableRotation : Bool) : List Piece :=
  if enableRotation then
    packIntoWaste (some (bottomStripPack i)) i.pieceH i.pieceW i.bladeThickness
  else []

/-- `const allPieces = [...piecesPrimary, ...rotatedInRight, ...rotatedInBottom]`
(Cutting.jsx line 98). -/
def allPieces (i : Inputs) (enableRotation : Bool) : List Piece :=
  piecesPrimary i ++ rotatedInRight i enableRotation ++ rotatedInBottom i enableRotation

/-- `const sheetArea = sheetW * sheetH` (Cutting.jsx line 99). -/
def sheetArea (i : Inputs) : ℚ := i.sheetW * i.sheetH

/-- `piecesArea = piecesAreaPrimary + rotatedPiecesArea` (Cutting.jsx lines 100-103). -/
def piecesArea (i : Inputs) (enableRotation : Bool) : ℚ :=
  (totalPiecesPrimary i : ℚ) * i.pieceW * i.pieceH +
    (((rotatedInRight i enableRotation).length + (rotatedInBottom i enableRotation).length : ℕ) : ℚ) *
      i.pieceW * i.pieceH

/-- `const wasteArea = Math.max(0, sheetArea - piecesArea)` (Cutting.jsx line 104). -/
def wasteArea (i : Inputs) (enableRotation : Bool) : ℚ :=
  max 0 (sheetArea i - piecesArea i enableRotation)

/-- `const wastePercent = sheetArea === 0 ? 0 : (wasteArea / sheetArea) * 100` (Cutting.jsx line 105). -/
def wastePercent (i : Inputs) (enableRotation : Bool) : ℚ :=
  if sheetArea i = 0 then 0 else wasteArea i enableRotation / sheetArea i * 100

/-- `computeForOrientation` (Cutting.jsx lines 30-124), assembled from the `const`
definitions above; `rightStrip`/`bottomStrip` are reported only when the matching
leftover is positive (lines 113-114). -/
def computeForOrientation (i : Inputs) (enableRotation : Bool) : LayoutResult :=
  { fitCountX := fitCountX i
    fitCountY := fitCountY i
    totalPiecesPrimary := totalPiecesPrimary i
    totalPieces := (allPieces i enableRotation).length
    pieces := allPieces i enableRotation
    rightStrip := if 0 < leftoverInsideW i then some (rightStrip i) else none
    bottomStrip := if 0 < leftoverInsideH i then some (bottomStrip i) else none
    leftoverInsideW := leftoverInsideW i
    leftoverInsideH := leftoverInsideH i
    usedW := usedW i
    usedH := usedH i
    rotatedInRightCount := (rotatedInRight i enableRotation).length
    rotatedInBottomCount := (rotatedInBottom i enableRotation).length
    wasteArea := wasteArea i enableRotation
    wastePercent := wastePercent i enableRotation
    chosenOrientation := none }

end Cutting

/-- The `{ best, alt }` pair built by the selector in `CuttingEngine` (Cutting.jsx line 142). -/
structure Selection where
  best : LayoutResult
  alt : LayoutResult

/-- The orientation selector from the `useMemo` in `CuttingEngine` (Cutting.jsx lines 142-176):
run both orientations, pick `rotated` on strictly more pieces or on equal pieces with
strictly less waste, and tag both results. -/
def cuttingSelect (sheetW sheetH cutW cutH edgeDistance bladeThickness : ℚ)
    (enableRotation : Bool) : Selection :=
  let normal := Cutting.computeForOrientation
    ⟨sheetW, sheetH, cutW, cutH, edgeDistance, bladeThickness⟩ enableRotation
  let rotated := Cutting.computeForOrientation
    ⟨sheetW, sheetH, cutH, cutW, edgeDistance, bladeThickness⟩ enableRotation
  if rotated.totalPieces > normal.totalPieces ∨
      (rotated.totalPieces = normal.totalPieces ∧ rotated.wastePercent < normal.wastePercent) then
    { best := { rotated with chosenOrientation := some ChosenOrientation.rotated }
      alt := { normal with chosenOrientation := some ChosenOrientation.normal } }
  else
    { best := { normal with chosenOrientation := some ChosenOrientation.normal }
      alt := { rotated with chosenOrientation := some ChosenOrientation.rotated } }

/-- A placement of the older engine revision in Navbar.jsx (lines 104-112): no `rotated` tag. -/
structure LegacyPiece where
  x : ℚ
  y : ℚ
  w : ℚ
  h : ℚ
deriving DecidableEq

/-- The record returned by the legacy `computeForOrientation` (Navbar.jsx lines 120-135). -/
structure LegacyResult where
  fitCountX : ℤ
  fitCountY : ℤ
  totalPieces : ℤ
  pieces : List LegacyPiece
  rightStrip : Option Strip
  bottomStrip : Option Strip
  leftoverInsideW : ℚ
  leftoverInsideH : ℚ
  usedW : ℚ
  usedH : ℚ
  wasteArea : ℚ
  wastePercent : ℚ
deriving DecidableEq

namespace Navbar

/-- The legacy placement loop (Navbar.jsx lines 105-112), identical coordinates but
no `rotated` field on the pushed objects. -/
def gridPieces (x0 y0 pieceW pieceH spacing : ℚ) (nx ny : ℕ) : List LegacyPiece :=
  (List.range nx).flatMap fun (ix : ℕ) =>
    (List.range ny).map fun (iy : ℕ) =>
      { x := x0 + (ix : ℚ) * (pieceW + spacing), y := y0 + (iy : ℚ) * (pieceH + spacing),
        w := pieceW, h := pieceH }

/-- The legacy `computeForOrientation` (Navbar.jsx lines 58-135): the same effective
area, fit counts, strips and waste formulas as the current revision, no backfill pass,
and `totalPieces = Math.max(0, fitCountX * fitCountY)` used directly for the area. -/
def computeForOrientation (i : Inputs) : LegacyResult :=
  let effW := max 0 (i.sheetW - 2 * i.edgeDistance)
  let effH := max 0 (i.sheetH - 2 * i.edgeDistance)
  let spacing := max 0 i.bladeThickness
  let fitCountX : ℤ := if i.pieceW ≤ 0 then 0 else ⌊(effW + spacing) / (i.pieceW + spacing)⌋
  let fitCountY : ℤ := if i.pieceH ≤ 0 then 0 else ⌊(effH + spacing) / (i.pieceH + spacing)⌋
  let totalPieces : ℤ := max 0 (fitCountX * fitCountY)
  let usedW : ℚ := (fitCountX : ℚ) * i.pieceW + ((max 0 (fitCountX - 1) : ℤ) : ℚ) * spacing
  let usedH : ℚ := (fitCountY : ℚ) * i.pieceH + ((max 0 (fitCountY - 1) : ℤ) : ℚ) * spacing
  let leftoverInsideW := max 0 (effW - usedW)
  let leftoverInsideH := max 0 (effH - usedH)
  let rightStrip : Strip :=
    ⟨i.sheetW - i.edgeDistance - leftoverInsideW, i.edgeDistance,
      leftoverInsideW, i.sheetH - 2 * i.edgeDistance⟩
  let bottomStrip : Strip :=
    ⟨i.edgeDistance, i.sheetH - i.edgeDistance - leftoverInsideH,
      i.sheetW - 2 * i.edgeDistance, leftoverInsideH⟩
  let pieces := gridPieces i.edgeDistance i.edgeDistance i.pieceW i.pieceH spacing
    fitCountX.toNat fitCountY.toNat
  let sheetArea := i.sheetW * i.sheetH
  let piecesArea := (totalPieces : ℚ) * i.pieceW * i.pieceH
  let wasteArea := max 0 (sheetArea - piecesArea)
  let wastePercent : ℚ := if sheetArea = 0 then 0 else wasteArea / sheetArea * 100
  { fitCountX := fitCountX
    fitCountY := fitCountY
    totalPieces := totalPieces
    pieces := pieces
    rightStrip := if 0 < leftoverInsideW then some rightStrip else none
    bottomStrip := if 0 < leftoverInsideH then some bottomStrip else none
    leftoverInsideW := leftoverInsideW
    leftoverInsideH := leftoverInsideH
    usedW := usedW
    usedH := usedH
    wasteArea := wasteArea
    wastePercent := wastePercent }

end Navbar

/-- Modelled from the spec: the fit-count floor division with the recommended positive
epsilon `1e-9` added to the numerator (spec section 4.1). No revision in the repository
implements this epsilon; this definition exists to compare the spec's formula with the
code's `fitCount`. -/
def fitCountWithEps (avail piece spacing : ℚ) : ℤ :=
  if piece ≤ 0 then 0 else ⌊(avail + spacing + 1 / 1000000000) / (piece + spacing)⌋

/-- Open-interval intersection test on both axes: the two placements share interior points. -/
def overlaps (p q : Piece) : Prop :=
  p.x < q.x + q.w ∧ q.x < p.x + p.w ∧ p.y < q.y + q.h ∧ q.y < p.y + p.h

instance (p q : Piece) : Decidable (overlaps p q) := by
  unfold overlaps; exact inferInstance

/-! Helper lemmas about the shared placement loop `gridPieces`. -/

theorem not_overlaps_of_le_x {p q : Piece} (h : p.x + p.w ≤ q.x) : ¬ overlaps p q :=
  fun hc => absurd hc.2.1 (not_lt.mpr h)

theorem not_overlaps_of_le_y {p q : Piece} (h : p.y + p.h ≤ q.y) : ¬ overlaps p q :=
  fun hc => absurd hc.2.2.2 (not_lt.mpr h)

theorem gridPieces_succ (x0 y0 pw ph s : ℚ) (n ny : ℕ) (rot : Bool) :
    gridPieces x0 y0 pw ph s (n + 1) ny rot =
      gridPieces x0 y0 pw ph s n ny rot ++
        (List.range ny).map (fun (iy : ℕ) =>
          { x := x0 + (n : ℚ) * (pw + s), y := y0 + (iy : ℚ) * (ph + s),
            w := pw, h := ph, rotated := rot }) := by
  simp only [gridPieces, List.range_succ, List.flatMap_append, List.flatMap_cons,
    List.flatMap_nil, List.append_nil]

theorem gridPieces_length (x0 y0 pw ph s : ℚ) (nx ny : ℕ) (rot : Bool) :
    (gridPieces x0 y0 pw ph s nx ny rot).length = nx * ny := by
  induction nx with
  | zero => simp [gridPieces]
  | succ n ih => simp [gridPieces_succ, ih, Nat.succ_mul]

theorem mem_gridPieces {x0 y0 pw ph s : ℚ} {nx ny : ℕ} {rot : Bool} {p : Piece} :
    p ∈ gridPieces x0 y0 pw ph s nx ny rot ↔
      ∃ ix, ix < nx ∧ ∃ iy, iy < ny ∧
        p = { x := x0 + ix * (pw + s), y := y0 + iy * (ph + s),
              w := pw, h := ph, rotated := rot } := by
  unfold gridPieces
  rw [List.mem_flatMap]
  constructor
  · rintro ⟨ix, hix, hmem⟩
    rw [List.mem_range] at hix
    rw [List.mem_map] at hmem
    obtain ⟨iy, hiy, heq⟩ := hmem
    rw [List.mem_range] at hiy
    exact ⟨ix, hix, iy, hiy, heq.symm⟩
  · rintro ⟨ix, hix, iy, hiy, rfl⟩
    exact ⟨ix, List.mem_range.mpr hix, List.mem_map.mpr ⟨iy, List.mem_range.mpr hiy, rfl⟩⟩

theorem gridPieces_getElem (x0 y0 pw ph s : ℚ) (rot : Bool) {nx ny ix iy : ℕ}
    (hix : ix < nx) (hiy : iy < ny) :
    (gridPieces x0 y0 pw ph s nx ny rot)[ix * ny + iy]? =
      some { x := x0 + ix * (pw + s), y := y0 + iy * (ph + s),
             w := pw, h := ph, rotated := rot } := by
  induction nx with
  | zero => omega
  | succ n ih =>
    rw [gridPieces_succ]
    rcases Nat.lt_or_ge ix n with h | h
    · rw [List.getElem?_append]
      rw [if_pos]
      · exact ih h
      · rw [gridPieces_length]
        calc ix * ny + iy < ix * ny + ny := by omega
          _ ≤ n * ny := by
            have : ix + 1 ≤ n := h
            calc ix * ny + ny = (ix + 1) * ny := by ring
              _ ≤ n * ny := Nat.mul_le_mul_right ny this
    · have hxn : ix = n := by omega
      subst hxn
      rw [List.getElem?_append_right]
      · rw [gridPieces_length]
        have : ix * ny + iy - ix * ny = iy := by omega
        rw [this, List.getElem?_map, List.getElem?_range hiy]
        rfl
      · rw [gridPieces_length]; omega

theorem gridPieces_pairwise {x0 y0 pw ph s : ℚ} {nx ny : ℕ} {rot : Bool}
    (hpw : 0 < pw) (hph : 0 < ph) (hs : 0 ≤ s) :
    (gridPieces x0 y0 pw ph s nx ny rot).Pairwise (fun p q => ¬ overlaps p q) := by
  induction nx with
  | zero => simp [gridPieces]
  | succ n ih =>
    rw [gridPieces_succ, List.pairwise_append]
    refine ⟨ih, ?_, ?_⟩
    · rw [List.pairwise_map]
      refine (List.pairwise_lt_range ny).imp ?_
      intro a b hab
      apply not_overlaps_of_le_y
      have hab' : (a : ℚ) + 1 ≤ (b : ℚ) := by exact_mod_cast hab
      simp only []
      nlinarith
    · intro p hp q hq
      rw [mem_gridPieces] at hp
      obtain ⟨ix, hix, iy, hiy, rfl⟩ := hp
      rw [List.mem_map] at hq
      obtain ⟨jy, hjy, rfl⟩ := hq
      apply not_overlaps_of_le_x
      have hix' : (ix : ℚ) + 1 ≤ (n : ℚ) := by exact_mod_cast hix
      simp only []
      nlinarith

theorem gridPieces_bounds {x0 y0 pw ph s : ℚ} {nx ny : ℕ} {rot : Bool} {p : Piece}
    (hpw : 0 < pw) (hph : 0 < ph) (hs : 0 ≤ s)
    (hp : p ∈ gridPieces x0 y0 pw ph s nx ny rot) :
    x0 ≤ p.x ∧ p.x + p.w ≤ x0 + ((nx : ℚ) * pw + ((nx : ℚ) - 1) * s) ∧
      y0 ≤ p.y ∧ p.y + p.h ≤ y0 + ((ny : ℚ) * ph + ((ny : ℚ) - 1) * s) ∧
      p.w = pw ∧ p.h = ph ∧ p.rotated = rot ∧ 1 ≤ nx ∧ 1 ≤ ny := by
  rw [mem_gridPieces] at hp
  obtain ⟨ix, hix, iy, hiy, rfl⟩ := hp
  have hix' : (ix : ℚ) + 1 ≤ (nx : ℚ) := by exact_mod_cast hix
  have hiy' : (iy : ℚ) + 1 ≤ (ny : ℚ) := by exact_mod_cast hiy
  have hixn : (0:ℚ) ≤ ix := Nat.cast_nonneg ix
  have hiyn : (0:ℚ) ≤ iy := Nat.cast_nonneg iy
  have hpws : (0:ℚ) ≤ pw + s := by linarith
  have hphs : (0:ℚ) ≤ ph + s := by linarith
  refine ⟨?_, ?_, ?_, ?_, rfl, rfl, rfl, by omega, by omega⟩
  · simp only []
    nlinarith [mul_nonneg hixn hpws]
  · simp only []
    nlinarith [mul_nonneg (sub_nonneg.mpr hix') hpws]
  · simp only []
    nlinarith [mul_nonneg hiyn hphs]
  · simp only []
    nlinarith [mul_nonneg (sub_nonneg.mpr hiy') hphs]

/-! Helper lemmas about `fitCount` and `packIntoWaste`. -/

theorem fitCount_nonpos_piece {avail piece s : ℚ} (h : piece ≤ 0) :
    fitCount avail piece s = 0 := by
  unfold fitCount; exact if_pos h

theorem fitCount_nonneg {avail piece s : ℚ} (hav : 0 ≤ avail) (hs : 0 ≤ s) :
    0 ≤ fitCount avail piece s := by
  unfold fitCount
  by_cases h : piece ≤ 0
  · rw [if_pos h]
  · rw [if_neg h]
    push_neg at h
    exact Int.floor_nonneg.mpr (div_nonneg (by linarith) (by linarith))

theorem fitCount_le (avail : ℚ) {piece s : ℚ} (hpiece : 0 < piece) (hs : 0 ≤ s) :
    ((fitCount avail piece s : ℤ) : ℚ) * (piece + s) ≤ avail + s := by
  have hps : (0:ℚ) < piece + s := by linarith
  unfold fitCount
  rw [if_neg (not_le.mpr hpiece)]
  calc ((⌊(avail + s) / (piece + s)⌋ : ℤ) : ℚ) * (piece + s)
      ≤ (avail + s) / (piece + s) * (piece + s) :=
        mul_le_mul_of_nonneg_right (Int.floor_le _) hps.le
    _ = avail + s := div_mul_cancel₀ _ hps.ne'

theorem fitCount_toNat_q (avail piece s : ℚ) (hav : 0 ≤ avail) (hs : 0 ≤ s) :
    (((fitCount avail piece s).toNat : ℕ) : ℚ) = ((fitCount avail piece s : ℤ) : ℚ) := by
  exact_mod_cast Int.toNat_of_nonneg (fitCount_nonneg hav hs)

theorem fitCount_avail_zero {piece s : ℚ} (hpiece : 0 < piece) (hs : 0 ≤ s) :
    fitCount 0 piece s = 0 := by
  unfold fitCount
  rw [if_neg (not_le.mpr hpiece), Int.floor_eq_zero_iff]
  refine Set.mem_Ico.mpr ⟨div_nonneg (by linarith) (by linarith), ?_⟩
  rw [div_lt_one (by linarith : (0:ℚ) < piece + s)]
  linarith

theorem gridPieces_ny_zero (x0 y0 pw ph s : ℚ) (nx : ℕ) (rot : Bool) :
    gridPieces x0 y0 pw ph s nx 0 rot = [] := by
  induction nx with
  | zero => rfl
  | succ n ih => rw [gridPieces_succ, ih]; rfl

theorem spacingOf_nonneg (b : ℚ) : 0 ≤ spacingOf b := le_max_left 0 b

theorem packIntoWaste_none (pw ph b : ℚ) : packIntoWaste none pw ph b = [] := rfl

theorem packIntoWaste_degenerate {s : Strip} {pw ph b : ℚ} (h : s.w ≤ 0 ∨ s.h ≤ 0) :
    packIntoWaste (some s) pw ph b = [] := by
  simp only [packIntoWaste]
  exact if_pos h

theorem packIntoWaste_pos {s : Strip} {pw ph b : ℚ} (hw : 0 < s.w) (hh : 0 < s.h) :
    packIntoWaste (some s) pw ph b =
      gridPieces s.x s.y pw ph (spacingOf b)
        (fitCount s.w pw (spacingOf b)).toNat
        (fitCount s.h ph (spacingOf b)).toNat true := by
  have h : ¬ (s.w ≤ 0 ∨ s.h ≤ 0) := by push_neg; exact ⟨hw, hh⟩
  simp only [packIntoWaste]
  exact if_neg h

theorem packIntoWaste_nonpos_piece {st : Option Strip} {pw ph b : ℚ} (h : pw ≤ 0 ∨ ph ≤ 0) :
    packIntoWaste st pw ph b = [] := by
  cases st with
  | none => rfl
  | some s =>
    by_cases hg : s.w ≤ 0 ∨ s.h ≤ 0
    · exact packIntoWaste_degenerate hg
    · push_neg at hg
      rw [packIntoWaste_pos hg.1 hg.2]
      rcases h with h | h
      · rw [fitCount_nonpos_piece h]
        rfl
      · rw [fitCount_nonpos_piece h]
        exact gridPieces_ny_zero _ _ _ _ _ _ _

theorem packIntoWaste_pairwise {st : Option Strip} {pw ph b : ℚ}
    (hpw : 0 < pw) (hph : 0 < ph) :
    (packIntoWaste st pw ph b).Pairwise fun p q => ¬ overlaps p q := by
  cases st with
  | none => exact List.Pairwise.nil
  | some s =>
    by_cases hg : s.w ≤ 0 ∨ s.h ≤ 0
    · rw [packIntoWaste_degenerate hg]; exact List.Pairwise.nil
    · push_neg at hg
      rw [packIntoWaste_pos hg.1 hg.2]
      exact gridPieces_pairwise hpw hph (spacingOf_nonneg b)

theorem packIntoWaste_bounds {s : Strip} {pw ph b : ℚ} {p : Piece}
    (hpw : 0 < pw) (hph : 0 < ph) (hp : p ∈ packIntoWaste (some s) pw ph b) :
    0 < s.w ∧ 0 < s.h ∧ s.x ≤ p.x ∧ p.x + p.w ≤ s.x + s.w ∧
      s.y ≤ p.y ∧ p.y + p.h ≤ s.y + s.h ∧ p.w = pw ∧ p.h = ph ∧ p.rotated = true := by
  by_cases hg : s.w ≤ 0 ∨ s.h ≤ 0
  · rw [packIntoWaste_degenerate hg] at hp
    exact absurd hp (List.not_mem_nil p)
  · push_neg at hg
    rw [packIntoWaste_pos hg.1 hg.2] at hp
    have hs0 : 0 ≤ spacingOf b := spacingOf_nonneg b
    obtain ⟨h1, h2, h3, h4, h5, h6, h7, hnx, hny⟩ := gridPieces_bounds hpw hph hs0 hp
    have hcw : (((fitCount s.w pw (spacingOf b)).toNat : ℕ) : ℚ) =
        ((fitCount s.w pw (spacingOf b) : ℤ) : ℚ) := fitCount_toNat_q s.w pw (spacingOf b) hg.1.le hs0
    have hch : (((fitCount s.h ph (spacingOf b)).toNat : ℕ) : ℚ) =
        ((fitCount s.h ph (spacingOf b) : ℤ) : ℚ) := fitCount_toNat_q s.h ph (spacingOf b) hg.2.le hs0
    have hfw := fitCount_le s.w hpw hs0
    have hfh := fitCount_le s.h hph hs0
    rw [hcw] at h2
    rw [hch] at h4
    exact ⟨hg.1, hg.2, h1, by linarith, h3, by linarith, h5, h6, h7⟩

/-! Helper lemmas about the derived quantities of `computeForOrientation`. -/

namespace Cutting

theorem spacing_nonneg (i : Inputs) : 0 ≤ spacing i := le_max_left 0 _

theorem effW_nonneg (i : Inputs) : 0 ≤ effW i := le_max_left 0 _

theorem effH_nonneg (i : Inputs) : 0 ≤ effH i := le_max_left 0 _

theorem fitCountX_nonneg (i : Inputs) : 0 ≤ fitCountX i :=
  fitCount_nonneg (effW_nonneg i) (spacing_nonneg i)

theorem fitCountY_nonneg (i : Inputs) : 0 ≤ fitCountY i :=
  fitCount_nonneg (effH_nonneg i) (spacing_nonneg i)

theorem fitCountX_toNat_q (i : Inputs) :
    (((fitCountX i).toNat : ℕ) : ℚ) = ((fitCountX i : ℤ) : ℚ) := by
  exact_mod_cast Int.toNat_of_nonneg (fitCountX_nonneg i)

theorem fitCountY_toNat_q (i : Inputs) :
    (((fitCountY i).toNat : ℕ) : ℚ) = ((fitCountY i : ℤ) : ℚ) := by
  exact_mod_cast Int.toNat_of_nonneg (fitCountY_nonneg i)

theorem usedW_nonneg (i : Inputs) : 0 ≤ usedW i := by
  by_cases hp : i.pieceW ≤ 0
  · unfold usedW fitCountX
    rw [fitCount_nonpos_piece hp]
    norm_num
  · push_neg at hp
    unfold usedW
    have h1 : (0:ℚ) ≤ (fitCountX i : ℚ) := by exact_mod_cast fitCountX_nonneg i
    have h2 : (0:ℚ) ≤ ((max 0 (fitCountX i - 1) : ℤ) : ℚ) := by
      exact_mod_cast le_max_left 0 (fitCountX i - 1)
    exact add_nonneg (mul_nonneg h1 hp.le) (mul_nonneg h2 (spacing_nonneg i))

theorem usedH_nonneg (i : Inputs) : 0 ≤ usedH i := by
  by_cases hp : i.pieceH ≤ 0
  · unfold usedH fitCountY
    rw [fitCount_nonpos_piece hp]
    norm_num
  · push_neg at hp
    unfold usedH
    have h1 : (0:ℚ) ≤ (fitCountY i : ℚ) := by exact_mod_cast fitCountY_nonneg i
    have h2 : (0:ℚ) ≤ ((max 0 (fitCountY i - 1) : ℤ) : ℚ) := by
      exact_mod_cast le_max_left 0 (fitCountY i - 1)
    exact add_nonneg (mul_nonneg h1 hp.le) (mul_nonneg h2 (spacing_nonneg i))

theorem usedW_le_effW (i : Inputs) (hpw : 0 < i.pieceW) : usedW i ≤ effW i := by
  rcases lt_or_le (fitCountX i) 1 with h | h
  · have hz : fitCountX i = 0 := le_antisymm (by omega) (fitCountX_nonneg i)
    unfold usedW
    rw [hz]
    norm_num
    exact effW_nonneg i
  · have hmx : (max 0 (fitCountX i - 1) : ℤ) = fitCountX i - 1 := max_eq_right (by omega)
    have hf := fitCount_le (effW i) hpw (spacing_nonneg i)
    unfold usedW
    rw [hmx]
    push_cast
    unfold fitCountX at *
    nlinarith [spacing_nonneg i]

theorem usedH_le_effH (i : Inputs) (hph : 0 < i.pieceH) : usedH i ≤ effH i := by
  rcases lt_or_le (fitCountY i) 1 with h | h
  · have hz : fitCountY i = 0 := le_antisymm (by omega) (fitCountY_nonneg i)
    unfold usedH
    rw [hz]
    norm_num
    exact effH_nonneg i
  · have hmx : (max 0 (fitCountY i - 1) : ℤ) = fitCountY i - 1 := max_eq_right (by omega)
    have hf := fitCount_le (effH i) hph (spacing_nonneg i)
    unfold usedH
    rw [hmx]
    push_cast
    unfold fitCountY at *
    nlinarith [spacing_nonneg i]

theorem leftoverInsideW_pos_facts (i : Inputs) (h : 0 < leftoverInsideW i) :
    effW i = i.sheetW - 2 * i.edgeDistance ∧ leftoverInsideW i = effW i - usedW i := by
  have h2 : 0 < effW i - usedW i := by
    by_contra hc
    push_neg at hc
    unfold leftoverInsideW at h
    rw [max_eq_left hc] at h
    exact absurd h (lt_irrefl 0)
  have h3 : 0 < effW i := lt_of_le_of_lt (usedW_nonneg i) (by linarith)
  constructor
  · unfold effW at h3 ⊢
    rcases le_or_lt (i.sheetW - 2 * i.edgeDistance) 0 with hc | hc
    · rw [max_eq_left hc] at h3
      exact absurd h3 (lt_irrefl 0)
    · exact max_eq_right hc.le
  · unfold leftoverInsideW
    exact max_eq_right h2.le

theorem leftoverInsideH_pos_facts (i : Inputs) (h : 0 < leftoverInsideH i) :
    effH i = i.sheetH - 2 * i.edgeDistance ∧ leftoverInsideH i = effH i - usedH i := by
  have h2 : 0 < effH i - usedH i := by
    by_contra hc
    push_neg at hc
    unfold leftoverInsideH at h
    rw [max_eq_left hc] at h
    exact absurd h (lt_irrefl 0)
  have h3 : 0 < effH i := lt_of_le_of_lt (usedH_nonneg i) (by linarith)
  constructor
  · unfold effH at h3 ⊢
    rcases le_or_lt (i.sheetH - 2 * i.edgeDistance) 0 with hc | hc
    · rw [max_eq_left hc] at h3
      exact absurd h3 (lt_irrefl 0)
    · exact max_eq_right hc.le
  · unfold leftoverInsideH
    exact max_eq_right h2.le

theorem leftoverInsideW_nonneg (i : Inputs) : 0 ≤ leftoverInsideW i := le_max_left 0 _

theorem leftoverInsideH_nonneg (i : Inputs) : 0 ≤ leftoverInsideH i := le_max_left 0 _

theorem rightStripPack_h_le (i : Inputs) : (rightStripPack i).h ≤ usedH i := by
  show max 0 ((rightStrip i).h - leftoverInsideH i) ≤ usedH i
  rcases le_or_lt (max 0 ((rightStrip i).h - leftoverInsideH i)) 0 with h | h
  · exact le_trans h (usedH_nonneg i)
  · have hpos : 0 < (rightStrip i).h - leftoverInsideH i := by
      by_contra hc
      push_neg at hc
      rw [max_eq_left hc] at h
      exact absurd h (lt_irrefl 0)
    rw [max_eq_right hpos.le]
    have hsh : 0 < i.sheetH - 2 * i.edgeDistance :=
      lt_of_le_of_lt (leftoverInsideH_nonneg i) (by
        show leftoverInsideH i < i.sheetH - 2 * i.edgeDistance
        have : (rightStrip i).h = i.sheetH - 2 * i.edgeDistance := rfl
        linarith [hpos, this ▸ hpos])
    have heffH : effH i = i.sheetH - 2 * i.edgeDistance := max_eq_right hsh.le
    have hh : (rightStrip i).h = i.sheetH - 2 * i.edgeDistance := rfl
    rw [hh]
    by_cases hc : effH i - usedH i ≤ 0
    · have : leftoverInsideH i = 0 := by unfold leftoverInsideH; exact max_eq_left hc
      rw [this]
      linarith
    · push_neg at hc
      have : leftoverInsideH i = effH i - usedH i := by
        unfold leftoverInsideH; exact max_eq_right hc.le
      rw [this]
      linarith

theorem bottomStripPack_w_le (i : Inputs) : (bottomStripPack i).w ≤ usedW i := by
  show max 0 ((bottomStrip i).w - leftoverInsideW i) ≤ usedW i
  rcases le_or_lt (max 0 ((bottomStrip i).w - leftoverInsideW i)) 0 with h | h
  · exact le_trans h (usedW_nonneg i)
  · have hpos : 0 < (bottomStrip i).w - leftoverInsideW i := by
      by_contra hc
      push_neg at hc
      rw [max_eq_left hc] at h
      exact absurd h (lt_irrefl 0)
    rw [max_eq_right hpos.le]
    have hsw : 0 < i.sheetW - 2 * i.edgeDistance :=
      lt_of_le_of_lt (leftoverInsideW_nonneg i) (by
        show leftoverInsideW i < i.sheetW - 2 * i.edgeDistance
        have : (bottomStrip i).w = i.sheetW - 2 * i.edgeDistance := rfl
        linarith [hpos, this ▸ hpos])
    have heffW : effW i = i.sheetW - 2 * i.edgeDistance := max_eq_right hsw.le
    have hw : (bottomStrip i).w = i.sheetW - 2 * i.edgeDistance := rfl
    rw [hw]
    by_cases hc : effW i - usedW i ≤ 0
    · have : leftoverInsideW i = 0 := by unfold leftoverInsideW; exact max_eq_left hc
      rw [this]
      linarith
    · push_neg at hc
      have : leftoverInsideW i = effW i - usedW i := by
        unfold leftoverInsideW; exact max_eq_right hc.le
      rw [this]
      linarith

end Cutting

namespace Cutting

theorem piecesPrimary_bounds (i : Inputs) (hpw : 0 < i.pieceW) (hph : 0 < i.pieceH)
    {p : Piece} (hp : p ∈ piecesPrimary i) :
    i.edgeDistance ≤ p.x ∧ p.x + p.w ≤ i.edgeDistance + usedW i ∧
      i.edgeDistance ≤ p.y ∧ p.y + p.h ≤ i.edgeDistance + usedH i ∧
      p.w = i.pieceW ∧ p.h = i.pieceH ∧ p.rotated = false ∧
      1 ≤ fitCountX i ∧ 1 ≤ fitCountY i := by
  unfold piecesPrimary at hp
  obtain ⟨h1, h2, h3, h4, h5, h6, h7, hnx, hny⟩ :=
    gridPieces_bounds hpw hph (spacing_nonneg i) hp
  have hfx1 : 1 ≤ fitCountX i := by omega
  have hfy1 : 1 ≤ fitCountY i := by omega
  have hmx : (max 0 (fitCountX i - 1) : ℤ) = fitCountX i - 1 := max_eq_right (by omega)
  have hmy : (max 0 (fitCountY i - 1) : ℤ) = fitCountY i - 1 := max_eq_right (by omega)
  rw [fitCountX_toNat_q i] at h2
  rw [fitCountY_toNat_q i] at h4
  refine ⟨h1, ?_, h3, ?_, h5, h6, h7, hfx1, hfy1⟩
  · unfold usedW
    rw [hmx]
    push_cast at h2 ⊢
    linarith
  · unfold usedH
    rw [hmy]
    push_cast at h4 ⊢
    linarith

theorem rotatedInRight_bounds (i : Inputs) {rot : Bool}
    (hpw : 0 < i.pieceW) (hph : 0 < i.pieceH) {p : Piece} (hp : p ∈ rotatedInRight i rot) :
    i.edgeDistance + usedW i ≤ p.x ∧ p.x + p.w ≤ i.sheetW - i.edgeDistance ∧
      i.edgeDistance ≤ p.y ∧ p.y + p.h ≤ i.edgeDistance + usedH i ∧
      p.y + p.h ≤ i.sheetH - i.edgeDistance ∧
      p.w = i.pieceH ∧ p.h = i.pieceW ∧ p.rotated = true := by
  unfold rotatedInRight at hp
  cases rot with
  | false => exact absurd hp (List.not_mem_nil p)
  | true =>
    rw [if_pos rfl] at hp
    obtain ⟨hsw, hsh, h3, h4, h5, h6, h7, h8, h9⟩ := packIntoWaste_bounds hph hpw hp
    have hwpos : 0 < leftoverInsideW i := hsw
    obtain ⟨heff, hlw⟩ := leftoverInsideW_pos_facts i hwpos
    have hx : (rightStripPack i).x = i.sheetW - i.edgeDistance - leftoverInsideW i := rfl
    have hy : (rightStripPack i).y = i.edgeDistance := rfl
    have hw : (rightStripPack i).w = leftoverInsideW i := rfl
    have hhp : (rightStripPack i).h =
        max 0 ((i.sheetH - 2 * i.edgeDistance) - leftoverInsideH i) := rfl
    have hshrink : (rightStripPack i).h ≤ usedH i := rightStripPack_h_le i
    have heffW_def : effW i = i.sheetW - 2 * i.edgeDistance := heff
    have hhpos : 0 < (rightStripPack i).h := hsh
    have hhval : (rightStripPack i).h = (i.sheetH - 2 * i.edgeDistance) - leftoverInsideH i := by
      rw [hhp]
      apply max_eq_right
      by_contra hc
      push_neg at hc
      rw [hhp] at hhpos
      rw [max_eq_left hc.le] at hhpos
      exact absurd hhpos (lt_irrefl 0)
    have hlH : 0 ≤ leftoverInsideH i := leftoverInsideH_nonneg i
    refine ⟨?_, ?_, ?_, ?_, ?_, h7, h8, h9⟩
    · rw [hx] at h3
      linarith
    · rw [hx, hw] at h4
      linarith
    · rw [hy] at h5
      exact h5
    · rw [hy] at h6
      linarith
    · rw [hy, hhval] at h6
      linarith

theorem rotatedInBottom_bounds (i : Inputs) {rot : Bool}
    (hpw : 0 < i.pieceW) (hph : 0 < i.pieceH) {p : Piece} (hp : p ∈ rotatedInBottom i rot) :
    i.edgeDistance ≤ p.x ∧ p.x + p.w ≤ i.edgeDistance + usedW i ∧
      p.x + p.w ≤ i.sheetW - i.edgeDistance ∧
      i.edgeDistance + usedH i ≤ p.y ∧ p.y + p.h ≤ i.sheetH - i.edgeDistance ∧
      p.w = i.pieceH ∧ p.h = i.pieceW ∧ p.rotated = true := by
  unfold rotatedInBottom at hp
  cases rot with
  | false => exact absurd hp (List.not_mem_nil p)
  | true =>
    rw [if_pos rfl] at hp
    obtain ⟨hsw, hsh, h3, h4, h5, h6, h7, h8, h9⟩ := packIntoWaste_bounds hph hpw hp
    have hhpos : 0 < leftoverInsideH i := hsh
    obtain ⟨heff, hlh⟩ := leftoverInsideH_pos_facts i hhpos
    have hx : (bottomStripPack i).x = i.edgeDistance := rfl
    have hy : (bottomStripPack i).y = i.sheetH - i.edgeDistance - leftoverInsideH i := rfl
    have hh : (bottomStripPack i).h = leftoverInsideH i := rfl
    have hwp : (bottomStripPack i).w =
        max 0 ((i.sheetW - 2 * i.edgeDistance) - leftoverInsideW i) := rfl
    have hshrink : (bottomStripPack i).w ≤ usedW i := bottomStripPack_w_le i
    have hwpos : 0 < (bottomStripPack i).w := hsw
    have hwval : (bottomStripPack i).w = (i.sheetW - 2 * i.edgeDistance) - leftoverInsideW i := by
      rw [hwp]
      apply max_eq_right
      by_contra hc
      push_neg at hc
      rw [hwp] at hwpos
      rw [max_eq_left hc.le] at hwpos
      exact absurd hwpos (lt_irrefl 0)
    have hlW : 0 ≤ leftoverInsideW i := leftoverInsideW_nonneg i
    refine ⟨?_, ?_, ?_, ?_, ?_, h7, h8, h9⟩
    · rw [hx] at h3
      exact h3
    · rw [hx] at h4
      linarith
    · rw [hx, hwval] at h4
      linarith
    · rw [hy] at h5
      linarith
    · rw [hy, hh] at h6
      linarith

theorem allPieces_pairwise (i : Inputs) (rot : Bool)
    (hpw : 0 < i.pieceW) (hph : 0 < i.pieceH) :
    (allPieces i rot).Pairwise fun p q => ¬ overlaps p q := by
  unfold allPieces
  rw [List.pairwise_append]
  refine ⟨?_, ?_, ?_⟩
  · rw [List.pairwise_append]
    refine ⟨?_, ?_, ?_⟩
    · unfold piecesPrimary
      exact gridPieces_pairwise hpw hph (spacing_nonneg i)
    · unfold rotatedInRight
      cases rot with
      | false => exact List.Pairwise.nil
      | true => rw [if_pos rfl]; exact packIntoWaste_pairwise hph hpw
    · intro p hp q hq
      obtain ⟨_, hpxw, _, _, _, _, _, _, _⟩ := piecesPrimary_bounds i hpw hph hp
      obtain ⟨hqx, _, _, _, _, _, _, _⟩ := rotatedInRight_bounds i hpw hph hq
      exact not_overlaps_of_le_x (by linarith)
  · unfold rotatedInBottom
    cases rot with
    | false => exact List.Pairwise.nil
    | true => rw [if_pos rfl]; exact packIntoWaste_pairwise hph hpw
  · intro p hp q hq
    rcases List.mem_append.mp hp with hp | hp
    · obtain ⟨_, _, _, hpyh, _, _, _, _, _⟩ := piecesPrimary_bounds i hpw hph hp
      obtain ⟨_, _, _, hqy, _, _, _, _⟩ := rotatedInBottom_bounds i hpw hph hq
      exact not_overlaps_of_le_y (by linarith)
    · obtain ⟨hpx, _, _, _, _, _, _, _⟩ := rotatedInRight_bounds i hpw hph hp
      obtain ⟨_, _, hqxw, _, _, _, _, _⟩ := rotatedInBottom_bounds i hpw hph hq
      exact fun hc => absurd hc.1 (not_lt.mpr (by linarith))

end Cutting

namespace Cutting

theorem effW_eq_of_fitCountX_pos (i : Inputs) (hpw : 0 < i.pieceW) (h : 1 ≤ fitCountX i) :
    effW i = i.sheetW - 2 * i.edgeDistance := by
  rcases le_or_lt (i.sheetW - 2 * i.edgeDistance) 0 with hc | hc
  · exfalso
    have h0 : effW i = 0 := max_eq_left hc
    unfold fitCountX at h
    rw [h0, fitCount_avail_zero hpw (spacing_nonneg i)] at h
    omega
  · exact max_eq_right hc.le

theorem effH_eq_of_fitCountY_pos (i : Inputs) (hph : 0 < i.pieceH) (h : 1 ≤ fitCountY i) :
    effH i = i.sheetH - 2 * i.edgeDistance := by
  rcases le_or_lt (i.sheetH - 2 * i.edgeDistance) 0 with hc | hc
  · exfalso
    have h0 : effH i = 0 := max_eq_left hc
    unfold fitCountY at h
    rw [h0, fitCount_avail_zero hph (spacing_nonneg i)] at h
    omega
  · exact max_eq_right hc.le

theorem allPieces_in_bounds (i : Inputs) (rot : Bool)
    (hpw : 0 < i.pieceW) (hph : 0 < i.pieceH) {p : Piece} (hp : p ∈ allPieces i rot) :
    i.edgeDistance ≤ p.x ∧ p.x + p.w ≤ i.sheetW - i.edgeDistance ∧
      i.edgeDistance ≤ p.y ∧ p.y + p.h ≤ i.sheetH - i.edgeDistance := by
  unfold allPieces at hp
  rcases List.mem_append.mp hp with hp | hp
  · rcases List.mem_append.mp hp with hp | hp
    · obtain ⟨h1, h2, h3, h4, _, _, _, hfx, hfy⟩ := piecesPrimary_bounds i hpw hph hp
      have heW := effW_eq_of_fitCountX_pos i hpw hfx
      have heH := effH_eq_of_fitCountY_pos i hph hfy
      have huW := usedW_le_effW i hpw
      have huH := usedH_le_effH i hph
      exact ⟨h1, by linarith, h3, by linarith⟩
    · obtain ⟨h1, h2, _, _, h5, _, _, _⟩ := rotatedInRight_bounds i hpw hph hp
      have := usedW_nonneg i
      refine ⟨by linarith, h2, ?_, h5⟩
      obtain ⟨_, _, h3, _, _, _, _, _⟩ := rotatedInRight_bounds i hpw hph hp
      exact h3
  · obtain ⟨h1, _, h3, h4, h5, _, _, _⟩ := rotatedInBottom_bounds i hpw hph hp
    have := usedH_nonneg i
    exact ⟨h1, h3, by linarith, h5⟩

end Cutting

/-- C1: with positive piece dimensions, nonnegative margin and spacing, and a positive
sheet, no two placements in the result of `computeForOrientation` overlap under the
open-interval intersection test on both axes; this covers every pair among primary-grid
placements, right-strip rotated placements and bottom-strip rotated placements, and in
particular (backfill enabled, both strips in play) no right-strip rotated placement
overlaps a bottom-strip rotated placement. -/
theorem computeForOrientation_no_overlap
    (sheetW sheetH pieceW pieceH edgeDistance bladeThickness : ℚ) (enableRotation : Bool)
    (hpw : 0 < pieceW) (hph : 0 < pieceH) (he : 0 ≤ edgeDistance)
    (hb : 0 ≤ bladeThickness) (hsw : 0 < sheetW) (hsh : 0 < sheetH) :
    (Cutting.computeForOrientation
        ⟨sheetW, sheetH, pieceW, pieceH, edgeDistance, bladeThickness⟩
        enableRotation).pieces.Pairwise (fun p q => ¬ overlaps p q) :=
  Cutting.allPieces_pairwise _ _ hpw hph

/-- Witness for C1 at sheet 5 x 2, piece 2 x 1, margin 0, spacing 0, backfill on
(a layout with a primary grid and one rotated right-strip placement). -/
theorem computeForOrientation_no_overlap_witness :
    (0:ℚ) < 2 ∧ (0:ℚ) < 1 ∧ (0:ℚ) ≤ 0 ∧ (0:ℚ) < 5 ∧
      (Cutting.computeForOrientation ⟨5, 2, 2, 1, 0, 0⟩ true).pieces.Pairwise
        (fun p q => ¬ overlaps p q) :=
  ⟨by norm_num, by norm_num, le_refl 0, by norm_num,
    computeForOrientation_no_overlap 5 2 2 1 0 0 true (by norm_num) (by norm_num)
      (le_refl 0) (le_refl 0) (by norm_num) (by norm_num)⟩

/-- C2: with positive piece dimensions, nonnegative margin and spacing, and a positive
sheet, every placement (primary or rotated) lies within the rectangle
from `(margin, margin)` to `(sheetW - margin, sheetH - margin)`; for `margin = 0`
this is exactly the full sheet `[0, sheetW] x [0, sheetH]`. -/
theorem computeForOrientation_in_bounds
    (sheetW sheetH pieceW pieceH edgeDistance bladeThickness : ℚ) (enableRotation : Bool)
    (hpw : 0 < pieceW) (hph : 0 < pieceH) (he : 0 ≤ edgeDistance)
    (hb : 0 ≤ bladeThickness) (hsw : 0 < sheetW) (hsh : 0 < sheetH) :
    ∀ p ∈ (Cutting.computeForOrientation
        ⟨sheetW, sheetH, pieceW, pieceH, edgeDistance, bladeThickness⟩
        enableRotation).pieces,
      edgeDistance ≤ p.x ∧ p.x + p.w ≤ sheetW - edgeDistance ∧
        edgeDistance ≤ p.y ∧ p.y + p.h ≤ sheetH - edgeDistance :=
  fun _ hp => Cutting.allPieces_in_bounds _ _ hpw hph hp

/-- Witness for C2 at sheet 1200 x 800, piece 200 x 150, margin 10, spacing 2, backfill on. -/
theorem computeForOrientation_in_bounds_witness :
    (0:ℚ) < 200 ∧ (0:ℚ) < 150 ∧ (0:ℚ) ≤ 10 ∧ (0:ℚ) ≤ 2 ∧ (0:ℚ) < 1200 ∧ (0:ℚ) < 800 ∧
      ∀ p ∈ (Cutting.computeForOrientation ⟨1200, 800, 200, 150, 10, 2⟩ true).pieces,
        (10:ℚ) ≤ p.x ∧ p.x + p.w ≤ 1200 - 10 ∧ (10:ℚ) ≤ p.y ∧ p.y + p.h ≤ 800 - 10 :=
  ⟨by norm_num, by norm_num, by norm_num, by norm_num, by norm_num, by norm_num,
    computeForOrientation_in_bounds 1200 800 200 150 10 2 true (by norm_num) (by norm_num)
      (by norm_num) (by norm_num) (by norm_num) (by norm_num)⟩

/-! Area accounting lemmas. -/

theorem sum_map_eq_length_mul {α : Type} {l : List α} {f : α → ℚ} {c : ℚ}
    (h : ∀ x ∈ l, f x = c) : (l.map f).sum = (l.length : ℚ) * c := by
  induction l with
  | nil => simp
  | cons a t ih =>
    rw [List.map_cons, List.sum_cons, List.length_cons,
      ih (fun x hx => h x (List.mem_cons_of_mem a hx)), h a (List.mem_cons_self a t)]
    push_cast
    ring

theorem mem_packIntoWaste_wh {st : Option Strip} {pw ph b : ℚ} {p : Piece}
    (hp : p ∈ packIntoWaste st pw ph b) : p.w = pw ∧ p.h = ph ∧ p.rotated = true := by
  cases st with
  | none => exact absurd hp (List.not_mem_nil p)
  | some s =>
    by_cases hg : s.w ≤ 0 ∨ s.h ≤ 0
    · rw [packIntoWaste_degenerate hg] at hp
      exact absurd hp (List.not_mem_nil p)
    · push_neg at hg
      rw [packIntoWaste_pos hg.1 hg.2] at hp
      rw [mem_gridPieces] at hp
      obtain ⟨ix, _, iy, _, rfl⟩ := hp
      exact ⟨rfl, rfl, rfl⟩

theorem count_mul_le_avail (avail piece s : ℚ) (hpiece : 0 < piece) (hs : 0 ≤ s)
    (hav : 0 ≤ avail) : (((fitCount avail piece s).toNat : ℕ) : ℚ) * piece ≤ avail := by
  have hn : 0 ≤ fitCount avail piece s := fitCount_nonneg hav hs
  rcases lt_or_le (fitCount avail piece s) 1 with h1 | h1
  · have hz : fitCount avail piece s = 0 := by omega
    rw [hz]
    norm_num
    exact hav
  · have hc := fitCount_le avail hpiece hs
    have ht := fitCount_toNat_q avail piece s hav hs
    rw [ht]
    have h1' : (1:ℚ) ≤ ((fitCount avail piece s : ℤ) : ℚ) := by exact_mod_cast h1
    nlinarith [mul_nonneg (sub_nonneg.mpr h1') hs]

theorem packIntoWaste_area_le {s : Strip} {pw ph b : ℚ}
    (hpw : 0 < pw) (hph : 0 < ph) (hws : 0 ≤ s.w) (hhs : 0 ≤ s.h) :
    (((packIntoWaste (some s) pw ph b).length : ℕ) : ℚ) * (pw * ph) ≤ s.w * s.h := by
  by_cases hg : s.w ≤ 0 ∨ s.h ≤ 0
  · rw [packIntoWaste_degenerate hg]
    simpa using mul_nonneg hws hhs
  · push_neg at hg
    rw [packIntoWaste_pos hg.1 hg.2, gridPieces_length]
    have h1 := count_mul_le_avail s.w pw (spacingOf b) hpw (spacingOf_nonneg b) hws
    have h2 := count_mul_le_avail s.h ph (spacingOf b) hph (spacingOf_nonneg b) hhs
    have hx0 : (0:ℚ) ≤ (((fitCount s.h ph (spacingOf b)).toNat : ℕ) : ℚ) * ph := by
      exact mul_nonneg (Nat.cast_nonneg _) hph.le
    calc (((fitCount s.w pw (spacingOf b)).toNat * (fitCount s.h ph (spacingOf b)).toNat : ℕ) : ℚ) * (pw * ph)
        = ((((fitCount s.w pw (spacingOf b)).toNat : ℕ) : ℚ) * pw) *
            ((((fitCount s.h ph (spacingOf b)).toNat : ℕ) : ℚ) * ph) := by
          push_cast
          ring
      _ ≤ s.w * s.h := by
          apply mul_le_mul h1 h2 hx0 hws

namespace Cutting

theorem totalPiecesPrimary_eq (i : Inputs) :
    totalPiecesPrimary i = (((fitCountX i).toNat * (fitCountY i).toNat : ℕ) : ℤ) := by
  unfold totalPiecesPrimary
  have hx := fitCountX_nonneg i
  have hy := fitCountY_nonneg i
  rw [max_eq_right (mul_nonneg hx hy), Nat.cast_mul, Int.toNat_of_nonneg hx,
    Int.toNat_of_nonneg hy]

theorem mem_piecesPrimary_wh (i : Inputs) {p : Piece} (hp : p ∈ piecesPrimary i) :
    p.w = i.pieceW ∧ p.h = i.pieceH ∧ p.rotated = false := by
  unfold piecesPrimary at hp
  rw [mem_gridPieces] at hp
  obtain ⟨ix, _, iy, _, rfl⟩ := hp
  exact ⟨rfl, rfl, rfl⟩

theorem mem_rotatedInRight_wh (i : Inputs) {rot : Bool} {p : Piece}
    (hp : p ∈ rotatedInRight i rot) : p.w = i.pieceH ∧ p.h = i.pieceW ∧ p.rotated = true := by
  unfold rotatedInRight at hp
  cases rot with
  | false => exact absurd hp (List.not_mem_nil p)
  | true =>
    rw [if_pos rfl] at hp
    exact mem_packIntoWaste_wh hp

theorem mem_rotatedInBottom_wh (i : Inputs) {rot : Bool} {p : Piece}
    (hp : p ∈ rotatedInBottom i rot) : p.w = i.pieceH ∧ p.h = i.pieceW ∧ p.rotated = true := by
  unfold rotatedInBottom at hp
  cases rot with
  | false => exact absurd hp (List.not_mem_nil p)
  | true =>
    rw [if_pos rfl] at hp
    exact mem_packIntoWaste_wh hp

theorem allPieces_area_sum (i : Inputs) (rot : Bool) :
    ((allPieces i rot).map fun p => p.w * p.h).sum = piecesArea i rot := by
  unfold allPieces
  rw [List.map_append, List.map_append, List.sum_append, List.sum_append]
  have h1 : ((piecesPrimary i).map fun p => p.w * p.h).sum
      = ((piecesPrimary i).length : ℚ) * (i.pieceW * i.pieceH) :=
    sum_map_eq_length_mul (fun p hp => by
      obtain ⟨hw, hh, _⟩ := mem_piecesPrimary_wh i hp
      rw [hw, hh])
  have h2 : ((rotatedInRight i rot).map fun p => p.w * p.h).sum
      = ((rotatedInRight i rot).length : ℚ) * (i.pieceW * i.pieceH) :=
    sum_map_eq_length_mul (fun p hp => by
      obtain ⟨hw, hh, _⟩ := mem_rotatedInRight_wh i hp
      rw [hw, hh]
      ring)
  have h3 : ((rotatedInBottom i rot).map fun p => p.w * p.h).sum
      = ((rotatedInBottom i rot).length : ℚ) * (i.pieceW * i.pieceH) :=
    sum_map_eq_length_mul (fun p hp => by
      obtain ⟨hw, hh, _⟩ := mem_rotatedInBottom_wh i hp
      rw [hw, hh]
      ring)
  rw [h1, h2, h3]
  unfold piecesArea piecesPrimary
  rw [totalPiecesPrimary_eq, gridPieces_length]
  push_cast
  ring

end Cutting

namespace Cutting

theorem fitX_mul_le_usedW (i : Inputs) (hpw : 0 < i.pieceW) :
    (((fitCountX i).toNat : ℕ) : ℚ) * i.pieceW ≤ usedW i := by
  rw [fitCountX_toNat_q i]
  unfold usedW
  have h2 : (0:ℚ) ≤ ((max 0 (fitCountX i - 1) : ℤ) : ℚ) := by
    exact_mod_cast le_max_left 0 (fitCountX i - 1)
  nlinarith [spacing_nonneg i]

theorem fitY_mul_le_usedH (i : Inputs) (hph : 0 < i.pieceH) :
    (((fitCountY i).toNat : ℕ) : ℚ) * i.pieceH ≤ usedH i := by
  rw [fitCountY_toNat_q i]
  unfold usedH
  have h2 : (0:ℚ) ≤ ((max 0 (fitCountY i - 1) : ℤ) : ℚ) := by
    exact_mod_cast le_max_left 0 (fitCountY i - 1)
  nlinarith [spacing_nonneg i]

theorem totalPiecesPrimary_zero_of_deg (i : Inputs) (h : i.pieceW ≤ 0 ∨ i.pieceH ≤ 0) :
    totalPiecesPrimary i = 0 := by
  unfold totalPiecesPrimary
  rcases h with h | h
  · unfold fitCountX
    rw [fitCount_nonpos_piece h, zero_mul]
    rfl
  · unfold fitCountY
    rw [fitCount_nonpos_piece h, mul_zero]
    rfl

theorem rotatedInRight_empty_of_deg (i : Inputs) (rot : Bool)
    (h : i.pieceW ≤ 0 ∨ i.pieceH ≤ 0) : rotatedInRight i rot = [] := by
  unfold rotatedInRight
  cases rot with
  | false => rfl
  | true =>
    rw [if_pos rfl]
    exact packIntoWaste_nonpos_piece h.symm

theorem rotatedInBottom_empty_of_deg (i : Inputs) (rot : Bool)
    (h : i.pieceW ≤ 0 ∨ i.pieceH ≤ 0) : rotatedInBottom i rot = [] := by
  unfold rotatedInBottom
  cases rot with
  | false => rfl
  | true =>
    rw [if_pos rfl]
    exact packIntoWaste_nonpos_piece h.symm

theorem effW_le_sheetW (i : Inputs) (hsw : 0 < i.sheetW) (he : 0 ≤ i.edgeDistance) :
    effW i ≤ i.sheetW := by
  unfold effW
  exact max_le hsw.le (by linarith)

theorem effH_le_sheetH (i : Inputs) (hsh : 0 < i.sheetH) (he : 0 ≤ i.edgeDistance) :
    effH i ≤ i.sheetH := by
  unfold effH
  exact max_le hsh.le (by linarith)

theorem piecesArea_le_sheetArea (i : Inputs) (rot : Bool)
    (hsw : 0 < i.sheetW) (hsh : 0 < i.sheetH) (he : 0 ≤ i.edgeDistance) :
    piecesArea i rot ≤ sheetArea i := by
  by_cases hdeg : i.pieceW ≤ 0 ∨ i.pieceH ≤ 0
  · unfold piecesArea sheetArea
    rw [totalPiecesPrimary_zero_of_deg i hdeg, rotatedInRight_empty_of_deg i rot hdeg,
      rotatedInBottom_empty_of_deg i rot hdeg]
    norm_num
    positivity
  · push_neg at hdeg
    obtain ⟨hpw, hph⟩ := hdeg
    have husW := usedW_nonneg i
    have husH := usedH_nonneg i
    have heW := usedW_le_effW i hpw
    have heH := usedH_le_effH i hph
    have hlW : leftoverInsideW i = effW i - usedW i := by
      unfold leftoverInsideW
      exact max_eq_right (by linarith)
    have hlH : leftoverInsideH i = effH i - usedH i := by
      unfold leftoverInsideH
      exact max_eq_right (by linarith)
    have hlWn : 0 ≤ leftoverInsideW i := leftoverInsideW_nonneg i
    have hlHn : 0 ≤ leftoverInsideH i := leftoverInsideH_nonneg i
    -- primary area is at most usedW * usedH
    have hA1 : (totalPiecesPrimary i : ℚ) * i.pieceW * i.pieceH ≤ usedW i * usedH i := by
      rw [totalPiecesPrimary_eq]
      have a1 := fitX_mul_le_usedW i hpw
      have a2 := fitY_mul_le_usedH i hph
      have hx0 : (0:ℚ) ≤ (((fitCountY i).toNat : ℕ) : ℚ) * i.pieceH :=
        mul_nonneg (Nat.cast_nonneg _) hph.le
      calc ((((fitCountX i).toNat * (fitCountY i).toNat : ℕ) : ℤ) : ℚ) * i.pieceW * i.pieceH
          = ((((fitCountX i).toNat : ℕ) : ℚ) * i.pieceW) *
              ((((fitCountY i).toNat : ℕ) : ℚ) * i.pieceH) := by push_cast; ring
        _ ≤ usedW i * usedH i := mul_le_mul a1 a2 hx0 husW
    -- right rotated area is at most leftover width times usedH
    have hA2 : (((rotatedInRight i rot).length : ℕ) : ℚ) * (i.pieceW * i.pieceH) ≤
        leftoverInsideW i * usedH i := by
      unfold rotatedInRight
      cases rot with
      | false => simpa using mul_nonneg hlWn husH
      | true =>
        rw [if_pos rfl]
        have hws : 0 ≤ (rightStripPack i).w := hlWn
        have hhs : 0 ≤ (rightStripPack i).h := le_max_left 0 _
        have hb := packIntoWaste_area_le (b := i.bladeThickness)
          (lt_of_lt_of_le hph (le_refl _)) hpw hws hhs
        have hsh2 : (rightStripPack i).w * (rightStripPack i).h ≤
            leftoverInsideW i * usedH i := by
          have h1 : (rightStripPack i).w = leftoverInsideW i := rfl
          have h2 := rightStripPack_h_le i
          rw [h1]
          exact mul_le_mul_of_nonneg_left h2 hlWn
        calc (((packIntoWaste (some (rightStripPack i)) i.pieceH i.pieceW i.bladeThickness).length : ℕ) : ℚ) *
              (i.pieceW * i.pieceH)
            = (((packIntoWaste (some (rightStripPack i)) i.pieceH i.pieceW i.bladeThickness).length : ℕ) : ℚ) *
              (i.pieceH * i.pieceW) := by ring
          _ ≤ (rightStripPack i).w * (rightStripPack i).h := hb
          _ ≤ leftoverInsideW i * usedH i := hsh2
    -- bottom rotated area is at most usedW times leftover height
    have hA3 : (((rotatedInBottom i rot).length : ℕ) : ℚ) * (i.pieceW * i.pieceH) ≤
        usedW i * leftoverInsideH i := by
      unfold rotatedInBottom
      cases rot with
      | false => simpa using mul_nonneg husW hlHn
      | true =>
        rw [if_pos rfl]
        have hws : 0 ≤ (bottomStripPack i).w := le_max_left 0 _
        have hhs : 0 ≤ (bottomStripPack i).h := hlHn
        have hb := packIntoWaste_area_le (b := i.bladeThickness) hph hpw hws hhs
        have hsh2 : (bottomStripPack i).w * (bottomStripPack i).h ≤
            usedW i * leftoverInsideH i := by
          have h1 : (bottomStripPack i).h = leftoverInsideH i := rfl
          have h2 := bottomStripPack_w_le i
          rw [h1]
          exact mul_le_mul_of_nonneg_right h2 hlHn
        calc (((packIntoWaste (some (bottomStripPack i)) i.pieceH i.pieceW i.bladeThickness).length : ℕ) : ℚ) *
              (i.pieceW * i.pieceH)
            = (((packIntoWaste (some (bottomStripPack i)) i.pieceH i.pieceW i.bladeThickness).length : ℕ) : ℚ) *
              (i.pieceH * i.pieceW) := by ring
          _ ≤ (bottomStripPack i).w * (bottomStripPack i).h := hb
          _ ≤ usedW i * leftoverInsideH i := hsh2
    have heffs : effW i * effH i ≤ sheetArea i := by
      unfold sheetArea
      exact mul_le_mul (effW_le_sheetW i hsw he) (effH_le_sheetH i hsh he)
        (effH_nonneg i) hsw.le
    have hsum : usedW i * usedH i + leftoverInsideW i * usedH i + usedW i * leftoverInsideH i ≤
        effW i * effH i := by
      rw [hlW, hlH]
      nlinarith [mul_nonneg (sub_nonneg.mpr heW) (sub_nonneg.mpr heH)]
    unfold piecesArea
    push_cast
    push_cast at hA1 hA2 hA3
    nlinarith [hA1, hA2, hA3, hsum, heffs]

end Cutting

/-- C4: for a positive sheet, nonnegative margin and spacing, the returned `wasteArea`
equals `sheetW * sheetH` minus the total area of the returned placements, and is
nonnegative. -/
theorem computeForOrientation_wasteArea
    (sheetW sheetH pieceW pieceH edgeDistance bladeThickness : ℚ) (enableRotation : Bool)
    (hsw : 0 < sheetW) (hsh : 0 < sheetH) (he : 0 ≤ edgeDistance) (hb : 0 ≤ bladeThickness) :
    (Cutting.computeForOrientation
        ⟨sheetW, sheetH, pieceW, pieceH, edgeDistance, bladeThickness⟩
        enableRotation).wasteArea =
      sheetW * sheetH -
        (((Cutting.computeForOrientation
            ⟨sheetW, sheetH, pieceW, pieceH, edgeDistance, bladeThickness⟩
            enableRotation).pieces.map fun p => p.w * p.h).sum) ∧
    0 ≤ (Cutting.computeForOrientation
        ⟨sheetW, sheetH, pieceW, pieceH, edgeDistance, bladeThickness⟩
        enableRotation).wasteArea := by
  constructor
  · show Cutting.wasteArea _ _ = sheetW * sheetH - ((Cutting.allPieces _ _).map fun p => p.w * p.h).sum
    rw [Cutting.allPieces_area_sum]
    unfold Cutting.wasteArea
    rw [max_eq_right (sub_nonneg.mpr (Cutting.piecesArea_le_sheetArea _ _ hsw hsh he))]
    rfl
  · exact le_max_left 0 _

/-- Witness for C4 at sheet 620 x 310, piece 200 x 300, margin 0, spacing 0, backfill on. -/
theorem computeForOrientation_wasteArea_witness :
    (0:ℚ) < 620 ∧ (0:ℚ) < 310 ∧ (0:ℚ) ≤ 0 ∧
      ((Cutting.computeForOrientation ⟨620, 310, 200, 300, 0, 0⟩ true).wasteArea =
        620 * 310 -
          (((Cutting.computeForOrientation ⟨620, 310, 200, 300, 0, 0⟩ true).pieces.map
            fun p => p.w * p.h).sum) ∧
      0 ≤ (Cutting.computeForOrientation ⟨620, 310, 200, 300, 0, 0⟩ true).wasteArea) :=
  ⟨by norm_num, by norm_num, le_refl 0,
    computeForOrientation_wasteArea 620 310 200 300 0 0 true (by norm_num) (by norm_num)
      (le_refl 0) (le_refl 0)⟩

/-- C6: `packIntoWaste` returns the empty sequence when the region is absent or has a
nonpositive dimension; otherwise it returns exactly `fitCountX * fitCountY` placements
(with the code's fit-count formula `fitCount`), in a fixed deterministic row-major
order, the placement at position `ix * fitCountY + iy` having top-left corner
`(region.x + ix*(pieceW+spacing), region.y + iy*(pieceH+spacing))`. -/
theorem packIntoWaste_spec (pw ph spacing : ℚ) (hsp : 0 ≤ spacing) :
    packIntoWaste none pw ph spacing = [] ∧
    ∀ s : Strip,
      ((s.w ≤ 0 ∨ s.h ≤ 0) → packIntoWaste (some s) pw ph spacing = []) ∧
      (0 < s.w → 0 < s.h →
        (packIntoWaste (some s) pw ph spacing).length =
          (fitCount s.w pw spacing).toNat * (fitCount s.h ph spacing).toNat ∧
        ∀ ix iy : ℕ,
          ix < (fitCount s.w pw spacing).toNat → iy < (fitCount s.h ph spacing).toNat →
          (packIntoWaste (some s) pw ph spacing)[ix * (fitCount s.h ph spacing).toNat + iy]? =
            some ⟨s.x + ix * (pw + spacing), s.y + iy * (ph + spacing), pw, ph, true⟩) := by
  have hid : spacingOf spacing = spacing := max_eq_right hsp
  refine ⟨rfl, fun s => ⟨fun h => packIntoWaste_degenerate h, fun hw hh => ?_⟩⟩
  rw [packIntoWaste_pos hw hh, hid]
  refine ⟨gridPieces_length _ _ _ _ _ _ _ _, fun ix iy hix hiy => ?_⟩
  exact gridPieces_getElem _ _ _ _ _ _ hix hiy

/-- Witness for C6 on the strip at (0,0) of size 3 x 2 with a 1 x 1 piece and zero
spacing: six placements, the one at index 2*2+1 sitting at (2, 1). -/
theorem packIntoWaste_spec_witness :
    (0:ℚ) ≤ 0 ∧ (0:ℚ) < 3 ∧ (0:ℚ) < 2 ∧
      (packIntoWaste (some ⟨0, 0, 3, 2⟩) 1 1 0).length = 6 ∧
      (packIntoWaste (some ⟨0, 0, 3, 2⟩) 1 1 0)[5]? =
        some ⟨0 + (2:ℕ) * ((1:ℚ) + 0), 0 + (1:ℕ) * ((1:ℚ) + 0), 1, 1, true⟩ := by
  have h := (packIntoWaste_spec 1 1 0 (le_refl 0)).2 ⟨0, 0, 3, 2⟩
  have hfw : (fitCount ((⟨0, 0, 3, 2⟩ : Strip).w) 1 0).toNat = 3 := by
    have hv : fitCount ((⟨0, 0, 3, 2⟩ : Strip).w) 1 0 = 3 := by norm_num [fitCount]
    rw [hv]
    rfl
  have hfh : (fitCount ((⟨0, 0, 3, 2⟩ : Strip).h) 1 0).toNat = 2 := by
    have hv : fitCount ((⟨0, 0, 3, 2⟩ : Strip).h) 1 0 = 2 := by norm_num [fitCount]
    rw [hv]
    rfl
  obtain ⟨hlen, hel⟩ := (h.2 (by norm_num) (by norm_num))
  refine ⟨le_refl 0, by norm_num, by norm_num, ?_, ?_⟩
  · rw [hlen, hfw, hfh]
  · have h5 := hel 2 1 (by rw [hfw]; norm_num) (by rw [hfh]; norm_num)
    rw [hfh] at h5
    exact h5

namespace Cutting

theorem piecesPrimary_empty_of_deg (i : Inputs) (h : i.pieceW ≤ 0 ∨ i.pieceH ≤ 0) :
    piecesPrimary i = [] := by
  unfold piecesPrimary
  rcases h with h | h
  · have hz : (fitCountX i).toNat = 0 := by
      unfold fitCountX
      rw [fitCount_nonpos_piece h]
      rfl
    rw [hz]
    rfl
  · have hz : (fitCountY i).toNat = 0 := by
      unfold fitCountY
      rw [fitCount_nonpos_piece h]
      rfl
    rw [hz]
    exact gridPieces_ny_zero _ _ _ _ _ _ _

theorem allPieces_empty_of_deg (i : Inputs) (rot : Bool) (h : i.pieceW ≤ 0 ∨ i.pieceH ≤ 0) :
    allPieces i rot = [] := by
  unfold allPieces
  rw [piecesPrimary_empty_of_deg i h, rotatedInRight_empty_of_deg i rot h,
    rotatedInBottom_empty_of_deg i rot h]
  rfl

end Cutting

/-- C7: for a positive sheet, a nonpositive piece width or height yields zero pieces
in every grid: `totalPieces = 0`, an empty placement list, `wastePercent = 100`, and
`fitCountX = 0` whenever the piece width itself is nonpositive. -/
theorem computeForOrientation_degenerate
    (sheetW sheetH pieceW pieceH edgeDistance bladeThickness : ℚ) (enableRotation : Bool)
    (hsw : 0 < sheetW) (hsh : 0 < sheetH) (hdeg : pieceW ≤ 0 ∨ pieceH ≤ 0) :
    (Cutting.computeForOrientation
        ⟨sheetW, sheetH, pieceW, pieceH, edgeDistance, bladeThickness⟩
        enableRotation).totalPieces = 0 ∧
    (Cutting.computeForOrientation
        ⟨sheetW, sheetH, pieceW, pieceH, edgeDistance, bladeThickness⟩
        enableRotation).pieces = [] ∧
    (Cutting.computeForOrientation
        ⟨sheetW, sheetH, pieceW, pieceH, edgeDistance, bladeThickness⟩
        enableRotation).wastePercent = 100 ∧
    (pieceW ≤ 0 →
      (Cutting.computeForOrientation
          ⟨sheetW, sheetH, pieceW, pieceH, edgeDistance, bladeThickness⟩
          enableRotation).fitCountX = 0) := by
  set i : Inputs := ⟨sheetW, sheetH, pieceW, pieceH, edgeDistance, bladeThickness⟩ with hi
  have hempty := Cutting.allPieces_empty_of_deg i enableRotation hdeg
  have hA : Cutting.sheetArea i = sheetW * sheetH := rfl
  have hApos : (0:ℚ) < Cutting.sheetArea i := by rw [hA]; positivity
  have hPA : Cutting.piecesArea i enableRotation = 0 := by
    unfold Cutting.piecesArea
    rw [Cutting.totalPiecesPrimary_zero_of_deg i hdeg,
      Cutting.rotatedInRight_empty_of_deg i enableRotation hdeg,
      Cutting.rotatedInBottom_empty_of_deg i enableRotation hdeg]
    norm_num
  refine ⟨?_, hempty, ?_, ?_⟩
  · show (Cutting.allPieces i enableRotation).length = 0
    rw [hempty]
    rfl
  · show Cutting.wastePercent i enableRotation = 100
    unfold Cutting.wastePercent
    rw [if_neg (ne_of_gt hApos)]
    unfold Cutting.wasteArea
    rw [hPA, sub_zero, max_eq_right hApos.le, div_self (ne_of_gt hApos)]
    norm_num
  · intro hp
    show Cutting.fitCountX i = 0
    unfold Cutting.fitCountX
    exact fitCount_nonpos_piece hp

/-- Witness for C7 at the spec's Scenario 2: sheet 100 x 100, piece 0 x 50. -/
theorem computeForOrientation_degenerate_witness :
    (0:ℚ) < 100 ∧ ((0:ℚ) ≤ 0 ∨ ¬ (0:ℚ) ≤ 50) ∧
      (Cutting.computeForOrientation ⟨100, 100, 0, 50, 0, 0⟩ false).totalPieces = 0 ∧
      (Cutting.computeForOrientation ⟨100, 100, 0, 50, 0, 0⟩ false).pieces = [] ∧
      (Cutting.computeForOrientation ⟨100, 100, 0, 50, 0, 0⟩ false).wastePercent = 100 ∧
      (Cutting.computeForOrientation ⟨100, 100, 0, 50, 0, 0⟩ false).fitCountX = 0 := by
  have h := computeForOrientation_degenerate 100 100 0 50 0 0 false (by norm_num) (by norm_num)
    (Or.inl (le_refl 0))
  exact ⟨by norm_num, Or.inl (le_refl 0), h.1, h.2.1, h.2.2.1, h.2.2.2 (le_refl 0)⟩

/-- C5: the selector picks the rotated orientation exactly when it yields strictly more
pieces, or equally many with strictly smaller waste percentage; on an exact tie in both
the normal orientation wins; the chosen result is tagged with its side and the rejected
candidate is returned as the alternate, unchanged except for its tag. -/
theorem cuttingSelect_tiebreak (sheetW sheetH cutW cutH edgeDistance bladeThickness : ℚ)
    (enableRotation : Bool) (normal rotated : LayoutResult)
    (hn : normal = Cutting.computeForOrientation
      ⟨sheetW, sheetH, cutW, cutH, edgeDistance, bladeThickness⟩ enableRotation)
    (hr : rotated = Cutting.computeForOrientation
      ⟨sheetW, sheetH, cutH, cutW, edgeDistance, bladeThickness⟩ enableRotation) :
    (((cuttingSelect sheetW sheetH cutW cutH edgeDistance bladeThickness enableRotation).best =
        { rotated with chosenOrientation := some ChosenOrientation.rotated } ∧
      (cuttingSelect sheetW sheetH cutW cutH edgeDistance bladeThickness enableRotation).alt =
        { normal with chosenOrientation := some ChosenOrientation.normal }) ↔
      (rotated.totalPieces > normal.totalPieces ∨
        (rotated.totalPieces = normal.totalPieces ∧
          rotated.wastePercent < normal.wastePercent))) ∧
    (¬ (rotated.totalPieces > normal.totalPieces ∨
        (rotated.totalPieces = normal.totalPieces ∧
          rotated.wastePercent < normal.wastePercent)) →
      (cuttingSelect sheetW sheetH cutW cutH edgeDistance bladeThickness enableRotation).best =
        { normal with chosenOrientation := some ChosenOrientation.normal } ∧
      (cuttingSelect sheetW sheetH cutW cutH edgeDistance bladeThickness enableRotation).alt =
        { rotated with chosenOrientation := some ChosenOrientation.rotated }) ∧
    (rotated.totalPieces = normal.totalPieces → rotated.wastePercent = normal.wastePercent →
      (cuttingSelect sheetW sheetH cutW cutH edgeDistance bladeThickness enableRotation).best =
        { normal with chosenOrientation := some ChosenOrientation.normal }) := by
  subst hn hr
  simp only [cuttingSelect]
  by_cases hcond : (Cutting.computeForOrientation
      ⟨sheetW, sheetH, cutH, cutW, edgeDistance, bladeThickness⟩ enableRotation).totalPieces >
        (Cutting.computeForOrientation
          ⟨sheetW, sheetH, cutW, cutH, edgeDistance, bladeThickness⟩ enableRotation).totalPieces ∨
      ((Cutting.computeForOrientation
          ⟨sheetW, sheetH, cutH, cutW, edgeDistance, bladeThickness⟩ enableRotation).totalPieces =
        (Cutting.computeForOrientation
          ⟨sheetW, sheetH, cutW, cutH, edgeDistance, bladeThickness⟩ enableRotation).totalPieces ∧
        (Cutting.computeForOrientation
          ⟨sheetW, sheetH, cutH, cutW, edgeDistance, bladeThickness⟩ enableRotation).wastePercent <
          (Cutting.computeForOrientation
            ⟨sheetW, sheetH, cutW, cutH, edgeDistance, bladeThickness⟩ enableRotation).wastePercent)
  · rw [if_pos hcond]
    refine ⟨⟨fun _ => hcond, fun _ => ⟨rfl, rfl⟩⟩, fun hc => absurd hcond hc, ?_⟩
    intro h1 h2
    exfalso
    rcases hcond with hgt | ⟨_, hlt⟩
    · omega
    · rw [h2] at hlt
      exact absurd hlt (lt_irrefl _)
  · rw [if_neg hcond]
    refine ⟨⟨?_, fun hc => absurd hc hcond⟩, fun _ => ⟨rfl, rfl⟩, fun _ _ => rfl⟩
    intro ⟨h1, _⟩
    exfalso
    have := congrArg LayoutResult.chosenOrientation h1
    simp only [] at this
    exact absurd (Option.some.injEq _ _ ▸ this) (by simp)

/-- Witness for C5 at the exact tie sheet 10 x 10, piece 3 x 3: the normal orientation
is selected (both candidate computations coincide, so both counts and percentages tie). -/
theorem cuttingSelect_tiebreak_witness :
    (cuttingSelect 10 10 3 3 0 0 false).best =
      { Cutting.computeForOrientation ⟨10, 10, 3, 3, 0, 0⟩ false with
        chosenOrientation := some ChosenOrientation.normal } :=
  (cuttingSelect_tiebreak 10 10 3 3 0 0 false _ _ rfl rfl).2.2 rfl rfl

/-- C8 (amended): the reported `rightStrip` is non-null exactly when `leftoverInsideW > 0`
and then equals the rectangle with `x = margin + usedW`, `y = margin`, `w = leftoverInsideW`
and unclamped cross dimension `h = sheetH - 2 * margin` (the code does not clamp this to
`effH`); symmetrically `bottomStrip` has `w = sheetW - 2 * margin`; the reported geometry
is independent of the backfill flag, so backfill packing leaves it the full, unshrunk
rectangle. -/
theorem computeForOrientation_strips (i : Inputs) (rot : Bool) :
    ((Cutting.computeForOrientation i rot).rightStrip =
      if 0 < Cutting.leftoverInsideW i then
        some ⟨i.edgeDistance + Cutting.usedW i, i.edgeDistance, Cutting.leftoverInsideW i,
          i.sheetH - 2 * i.edgeDistance⟩
      else none) ∧
    ((Cutting.computeForOrientation i rot).bottomStrip =
      if 0 < Cutting.leftoverInsideH i then
        some ⟨i.edgeDistance, i.edgeDistance + Cutting.usedH i,
          i.sheetW - 2 * i.edgeDistance, Cutting.leftoverInsideH i⟩
      else none) := by
  constructor
  · show (if 0 < Cutting.leftoverInsideW i then some (Cutting.rightStrip i) else none) = _
    by_cases hlw : 0 < Cutting.leftoverInsideW i
    · rw [if_pos hlw, if_pos hlw]
      obtain ⟨heff, hlw2⟩ := Cutting.leftoverInsideW_pos_facts i hlw
      have hx : i.sheetW - i.edgeDistance - Cutting.leftoverInsideW i =
          i.edgeDistance + Cutting.usedW i := by
        rw [hlw2, heff]
        ring
      unfold Cutting.rightStrip
      rw [hx]
    · rw [if_neg hlw, if_neg hlw]
  · show (if 0 < Cutting.leftoverInsideH i then some (Cutting.bottomStrip i) else none) = _
    by_cases hlh : 0 < Cutting.leftoverInsideH i
    · rw [if_pos hlh, if_pos hlh]
      obtain ⟨heff, hlh2⟩ := Cutting.leftoverInsideH_pos_facts i hlh
      have hy : i.sheetH - i.edgeDistance - Cutting.leftoverInsideH i =
          i.edgeDistance + Cutting.usedH i := by
        rw [hlh2, heff]
        ring
      unfold Cutting.bottomStrip
      rw [hy]
    · rw [if_neg hlh, if_neg hlh]

/-- Counterexample to C8 as stated: at sheet 100 x 10, piece 30 x 5, margin 6, spacing 0
the reported right strip is `{x = 66, y = 6, w = 28, h = -2}`, whose height
`sheetH - 2*margin = -2` is not the clamped `effH = max 0 (sheetH - 2*margin) = 0`
the claim specifies. -/
theorem computeForOrientation_strips_counterexample :
    (Cutting.computeForOrientation ⟨100, 10, 30, 5, 6, 0⟩ false).rightStrip =
      some ⟨66, 6, 28, -2⟩ ∧
    ¬ ((-2 : ℚ) = max 0 ((10 : ℚ) - 2 * 6)) := by
  constructor
  · show (if 0 < Cutting.leftoverInsideW ⟨100, 10, 30, 5, 6, 0⟩ then
        some (Cutting.rightStrip ⟨100, 10, 30, 5, 6, 0⟩) else none) = some ⟨66, 6, 28, -2⟩
    have h1 : Cutting.fitCountX ⟨100, 10, 30, 5, 6, 0⟩ = 2 := by
      norm_num [Cutting.fitCountX, Cutting.effW, Cutting.spacing, spacingOf, fitCount, max_def]
    have h2 : Cutting.usedW ⟨100, 10, 30, 5, 6, 0⟩ = 60 := by
      norm_num [Cutting.usedW, h1, Cutting.spacing, spacingOf, max_def]
    have h3 : Cutting.leftoverInsideW ⟨100, 10, 30, 5, 6, 0⟩ = 28 := by
      norm_num [Cutting.leftoverInsideW, Cutting.effW, h2, max_def]
    rw [h3, if_pos (by norm_num : (0:ℚ) < 28)]
    unfold Cutting.rightStrip
    rw [h3]
    norm_num
  · rw [max_eq_left (by norm_num : (10 : ℚ) - 2 * 6 ≤ 0)]
    norm_num

namespace Navbar

theorem legacyGrid_succ (x0 y0 pw ph s : ℚ) (n ny : ℕ) :
    gridPieces x0 y0 pw ph s (n + 1) ny =
      gridPieces x0 y0 pw ph s n ny ++
        (List.range ny).map (fun (iy : ℕ) =>
          { x := x0 + (n : ℚ) * (pw + s), y := y0 + (iy : ℚ) * (ph + s),
            w := pw, h := ph : LegacyPiece }) := by
  simp only [gridPieces, List.range_succ, List.flatMap_append, List.flatMap_cons,
    List.flatMap_nil, List.append_nil]

end Navbar

theorem gridPieces_to_legacy (x0 y0 pw ph s : ℚ) (nx ny : ℕ) (rot : Bool) :
    (gridPieces x0 y0 pw ph s nx ny rot).map
        (fun p => { x := p.x, y := p.y, w := p.w, h := p.h : LegacyPiece }) =
      Navbar.gridPieces x0 y0 pw ph s nx ny := by
  induction nx with
  | zero => rfl
  | succ n ih =>
    rw [gridPieces_succ, Navbar.legacyGrid_succ, List.map_append, ih, List.map_map]
    rfl

/-- C9: with backfill disabled, the current engine revision and the legacy revision in
Navbar.jsx agree on fit counts, total piece count, each placement's position and size
(the current revision merely adds `rotated = false` tags), the reported strips, and the
waste figures. -/
theorem computeForOrientation_legacy_equiv (i : Inputs) :
    (Cutting.computeForOrientation i false).fitCountX =
      (Navbar.computeForOrientation i).fitCountX ∧
    (Cutting.computeForOrientation i false).fitCountY =
      (Navbar.computeForOrientation i).fitCountY ∧
    ((Cutting.computeForOrientation i false).totalPieces : ℤ) =
      (Navbar.computeForOrientation i).totalPieces ∧
    ((Cutting.computeForOrientation i false).pieces.map
        fun p => { x := p.x, y := p.y, w := p.w, h := p.h : LegacyPiece }) =
      (Navbar.computeForOrientation i).pieces ∧
    (∀ p ∈ (Cutting.computeForOrientation i false).pieces, p.rotated = false) ∧
    (Cutting.computeForOrientation i false).rightStrip =
      (Navbar.computeForOrientation i).rightStrip ∧
    (Cutting.computeForOrientation i false).bottomStrip =
      (Navbar.computeForOrientation i).bottomStrip ∧
    (Cutting.computeForOrientation i false).wasteArea =
      (Navbar.computeForOrientation i).wasteArea ∧
    (Cutting.computeForOrientation i false).wastePercent =
      (Navbar.computeForOrientation i).wastePercent := by
  have hpieces : (Cutting.computeForOrientation i false).pieces = Cutting.piecesPrimary i := by
    show Cutting.allPieces i false = Cutting.piecesPrimary i
    unfold Cutting.allPieces Cutting.rotatedInRight Cutting.rotatedInBottom
    simp
  have hlpieces : (Navbar.computeForOrientation i).pieces =
      Navbar.gridPieces i.edgeDistance i.edgeDistance i.pieceW i.pieceH (Cutting.spacing i)
        (Cutting.fitCountX i).toNat (Cutting.fitCountY i).toNat := rfl
  have hparea : Cutting.piecesArea i false =
      (Cutting.totalPiecesPrimary i : ℚ) * i.pieceW * i.pieceH := by
    unfold Cutting.piecesArea Cutting.rotatedInRight Cutting.rotatedInBottom
    norm_num
  have hwaste : (Cutting.computeForOrientation i false).wasteArea =
      (Navbar.computeForOrientation i).wasteArea := by
    show Cutting.wasteArea i false =
      max 0 (Cutting.sheetArea i - (Cutting.totalPiecesPrimary i : ℚ) * i.pieceW * i.pieceH)
    unfold Cutting.wasteArea
    rw [hparea]
  refine ⟨rfl, rfl, ?_, ?_, ?_, rfl, rfl, hwaste, ?_⟩
  · show ((Cutting.allPieces i false).length : ℤ) = Cutting.totalPiecesPrimary i
    have : (Cutting.allPieces i false).length = (Cutting.piecesPrimary i).length := by
      rw [show Cutting.allPieces i false = Cutting.piecesPrimary i from hpieces]
    rw [this]
    unfold Cutting.piecesPrimary
    rw [gridPieces_length, Cutting.totalPiecesPrimary_eq]
  · rw [hpieces, hlpieces]
    unfold Cutting.piecesPrimary
    exact gridPieces_to_legacy _ _ _ _ _ _ _ _
  · intro p hp
    rw [hpieces] at hp
    exact (Cutting.mem_piecesPrimary_wh i hp).2.2
  · show Cutting.wastePercent i false =
      (if Cutting.sheetArea i = 0 then 0 else
        max 0 (Cutting.sheetArea i - (Cutting.totalPiecesPrimary i : ℚ) * i.pieceW * i.pieceH) /
          Cutting.sheetArea i * 100)
    unfold Cutting.wastePercent Cutting.wasteArea
    rw [hparea]

theorem packIntoWaste_spacing_congr {b b' : ℚ} (h : spacingOf b = spacingOf b')
    (st : Option Strip) (pw ph : ℚ) :
    packIntoWaste st pw ph b = packIntoWaste st pw ph b' := by
  cases st with
  | none => rfl
  | some s => simp only [packIntoWaste, h]

/-- C10: a negative `bladeThickness` is normalized to 0 by the `Math.max(0, ...)` in both
the primary-grid computation and the strip packer, so the whole `LayoutResult` for a
negative spacing is identical to the result for spacing 0; in particular the engine
still never places pieces closer together than touching. -/
theorem computeForOrientation_negative_blade
    (sheetW sheetH pieceW pieceH edgeDistance bladeThickness : ℚ) (enableRotation : Bool)
    (hb : bladeThickness < 0) :
    Cutting.computeForOrientation
        ⟨sheetW, sheetH, pieceW, pieceH, edgeDistance, bladeThickness⟩ enableRotation =
      Cutting.computeForOrientation
        ⟨sheetW, sheetH, pieceW, pieceH, edgeDistance, 0⟩ enableRotation ∧
    (∀ (st : Option Strip) (pw ph : ℚ),
      packIntoWaste st pw ph bladeThickness = packIntoWaste st pw ph 0) ∧
    (0 < pieceW → 0 < pieceH →
      (Cutting.computeForOrientation
          ⟨sheetW, sheetH, pieceW, pieceH, edgeDistance, bladeThickness⟩
          enableRotation).pieces.Pairwise fun p q => ¬ overlaps p q) := by
  have hsp : spacingOf bladeThickness = spacingOf 0 := by
    unfold spacingOf
    rw [max_eq_left hb.le, max_self]
  have hpack : ∀ (st : Option Strip) (pw ph : ℚ),
      packIntoWaste st pw ph bladeThickness = packIntoWaste st pw ph 0 :=
    fun st pw ph => packIntoWaste_spacing_congr hsp st pw ph
  refine ⟨?_, hpack, fun hpw hph => Cutting.allPieces_pairwise _ _ hpw hph⟩
  simp only [Cutting.computeForOrientation, Cutting.fitCountX, Cutting.fitCountY,
    Cutting.totalPiecesPrimary, Cutting.usedW, Cutting.usedH, Cutting.leftoverInsideW,
    Cutting.leftoverInsideH, Cutting.rightStrip, Cutting.bottomStrip, Cutting.piecesPrimary,
    Cutting.rightStripPack, Cutting.bottomStripPack, Cutting.rotatedInRight,
    Cutting.rotatedInBottom, Cutting.allPieces, Cutting.sheetArea, Cutting.piecesArea,
    Cutting.wasteArea, Cutting.wastePercent, Cutting.spacing, Cutting.effW, Cutting.effH,
    hsp, hpack]

/-- Witness for C10 at spacing -1 on sheet 5 x 2, piece 2 x 1, margin 0, backfill on. -/
theorem computeForOrientation_negative_blade_witness :
    Cutting.computeForOrientation ⟨5, 2, 2, 1, 0, -1⟩ true =
      Cutting.computeForOrientation ⟨5, 2, 2, 1, 0, 0⟩ true :=
  (computeForOrientation_negative_blade 5 2 2 1 0 (-1) true (by norm_num)).1

/-- C3 as stated fails on the code: no fit-count computation adds the epsilon 1e-9.
At an effective width one tenth of a nanometre short of fitting two unit pieces the
code's floor division yields 1, while the epsilon formula the spec requires yields 2.
This theorem exhibits that divergence (the same `fitCount` is used verbatim by the
strip packer `packIntoWaste`). -/
theorem fitCount_missing_epsilon :
    (Cutting.computeForOrientation
        ⟨2 - 1 / 10000000000, 1, 1, 1, 0, 0⟩ false).fitCountX = 1 ∧
    fitCount (2 - 1 / 10000000000) 1 0 = 1 ∧
    fitCountWithEps (2 - 1 / 10000000000) 1 0 = 2 := by
  refine ⟨?_, ?_, ?_⟩
  · show Cutting.fitCountX ⟨2 - 1 / 10000000000, 1, 1, 1, 0, 0⟩ = 1
    norm_num [Cutting.fitCountX, Cutting.effW, Cutting.spacing, spacingOf, fitCount, max_def]
  · norm_num [fitCount]
  · norm_num [fitCountWithEps]
